import Mathlib

/-!
Verification of the track-geometry and agent core of the AIRacing program
(`src/AIRacing.py`): centerline finalization, boundary offsetting and overlap
repair, the rasterized track-membership test, sensor ray casting, agent
kinematics with collision reset, and the rule-based steering policies.

The Python code is shallowly embedded: points are pairs of reals, numpy vector
arithmetic becomes componentwise operations, `np.linalg.norm` becomes the
Euclidean norm, mutable objects become state-passing functions.  The scipy
spline smoother and the pygame polygon rasterizer are external library calls
and are abstracted as function parameters (documented at their definitions);
all control flow around them is taken verbatim from the source.
-/

open scoped Classical

noncomputable section

namespace AIRacing

/-- Screen width in pixels (`WIDTH = 1080`). -/
def WIDTH : ℤ := 1080

/-- Screen height in pixels (`HEIGHT = 1080`). -/
def HEIGHT : ℤ := 1080

/-- The fixed track width (`TRACK_WIDTH = 80`), stored as `Track.width`. -/
def TRACK_WIDTH : ℝ := 80

/-- A 2D point in screen coordinates (the Python `(x, y)` tuples / numpy pairs). -/
abbrev Point : Type := ℝ × ℝ

/-- Componentwise addition of points (numpy `p1 + offset`). -/
def ptAdd (p q : Point) : Point := (p.1 + q.1, p.2 + q.2)

/-- Componentwise subtraction of points (numpy `p2 - p1`). -/
def ptSub (p q : Point) : Point := (p.1 - q.1, p.2 - q.2)

/-- Scalar multiple of a point (numpy `v * c`, and `v / c` as `ptScale (1/c) v`). -/
def ptScale (c : ℝ) (p : Point) : Point := (c * p.1, c * p.2)

/-- Euclidean norm of a point viewed as a vector (`np.linalg.norm`). -/
def norm2 (p : Point) : ℝ := Real.sqrt (p.1 ^ 2 + p.2 ^ 2)

theorem norm2_nonneg (p : Point) : 0 ≤ norm2 p := Real.sqrt_nonneg _

theorem norm2_scale (c : ℝ) (p : Point) : norm2 (ptScale c p) = |c| * norm2 p := by
  unfold norm2 ptScale
  dsimp only
  rw [show (c * p.1) ^ 2 + (c * p.2) ^ 2 = c ^ 2 * (p.1 ^ 2 + p.2 ^ 2) by ring,
    Real.sqrt_mul (sq_nonneg c), Real.sqrt_sq_eq_abs]

theorem norm2_x (a : ℝ) : norm2 (a, (0 : ℝ)) = |a| := by
  unfold norm2
  dsimp only
  rw [show a ^ 2 + (0 : ℝ) ^ 2 = a ^ 2 by ring, Real.sqrt_sq_eq_abs]

theorem norm2_eq_zero_iff (p : Point) : norm2 p = 0 ↔ p = ((0 : ℝ), (0 : ℝ)) := by
  unfold norm2
  rw [Real.sqrt_eq_zero (by positivity)]
  constructor
  · intro h
    have h1 : p.1 = 0 ∧ p.2 = 0 := by
      constructor <;> nlinarith [sq_nonneg p.1, sq_nonneg p.2]
    exact Prod.ext h1.1 h1.2
  · intro h
    rw [h]
    norm_num

/--
The per-index overlap-repair step of the boundary-test variant of
`Track.calculate_boundaries` (src/AIRacing.py lines 355-366): given matched
inner/outer points, compute their midpoint and separation; if the separation is
below `self.width`, rescale both points about the midpoint by
`scale = (self.width / 2) / distance` (or `0.5` when the separation is zero);
otherwise return the pair unchanged.
-/
def repairPair (w : ℝ) (p_inner p_outer : Point) : Point × Point :=
  let midpoint := ptScale (1 / 2) (ptAdd p_inner p_outer)
  let distance := norm2 (ptSub p_inner p_outer)
  if distance < w then
    let scale := if distance ≠ 0 then (w / 2) / distance else 1 / 2
    (ptAdd midpoint (ptScale scale (ptSub p_inner midpoint)),
     ptAdd midpoint (ptScale scale (ptSub p_outer midpoint)))
  else (p_inner, p_outer)

/--
The repair loop over the two closed boundary lists (`for i in range(len(inner))`,
src/AIRacing.py lines 353-366); the lists always have equal length where the loop
runs, so it is a pointwise zip.
-/
def repairLists (w : ℝ) (inner outer : List Point) : List Point × List Point :=
  (((inner.zip outer).map fun pr => repairPair w pr.1 pr.2).map Prod.fst,
   ((inner.zip outer).map fun pr => repairPair w pr.1 pr.2).map Prod.snd)

theorem sub_adjusted (m u v : Point) (s : ℝ) :
    ptSub (ptAdd m (ptScale s (ptSub u m))) (ptAdd m (ptScale s (ptSub v m)))
      = ptScale s (ptSub u v) := by
  unfold ptAdd ptSub ptScale
  dsimp only
  rw [Prod.mk.injEq]
  constructor <;> ring

theorem repairPair_dist (w : ℝ) (pi po : Point) (hw : 0 < w)
    (hd : 0 < norm2 (ptSub pi po)) :
    norm2 (ptSub (repairPair w pi po).1 (repairPair w pi po).2)
      = if norm2 (ptSub pi po) < w then w / 2 else norm2 (ptSub pi po) := by
  have hne : norm2 (ptSub pi po) ≠ 0 := ne_of_gt hd
  by_cases h : norm2 (ptSub pi po) < w
  · rw [if_pos h]
    unfold repairPair
    simp only [if_pos h, if_pos hne]
    rw [sub_adjusted, norm2_scale, abs_of_pos (div_pos (by linarith) hd),
      div_mul_cancel₀ _ hne]
  · rw [if_neg h]
    unfold repairPair
    simp only [if_neg h]

theorem repairPair_unchanged (w : ℝ) (pi po : Point)
    (h : w ≤ norm2 (ptSub pi po)) : repairPair w pi po = (pi, po) := by
  unfold repairPair
  simp only [if_neg (not_lt.mpr h)]

/--
C1 (amended): in the repair-enabled boundary pipeline, every index whose
inner/outer separation is positive but below `width` has both points rescaled
about the midpoint along the inner-outer axis so that the separation becomes
exactly `width / 2` (the half-width) -- not the full `width`; indices at or
above `width` are left unchanged.  Consequently every index with positive input
separation satisfies `separation ≥ width / 2` after repair.
-/
theorem C1_repair_separation (w : ℝ) (inner outer : List Point) (i : ℕ)
    (pi po : Point) (hw : 0 < w) (hz : (inner.zip outer)[i]? = some (pi, po))
    (hd : 0 < norm2 (ptSub pi po)) :
    ∃ qi qo, (repairLists w inner outer).1[i]? = some qi ∧
      (repairLists w inner outer).2[i]? = some qo ∧
      w / 2 ≤ norm2 (ptSub qi qo) ∧
      (norm2 (ptSub pi po) < w → norm2 (ptSub qi qo) = w / 2) ∧
      (w ≤ norm2 (ptSub pi po) → qi = pi ∧ qo = po) := by
  refine ⟨(repairPair w pi po).1, (repairPair w pi po).2, ?_, ?_, ?_, ?_, ?_⟩
  · unfold repairLists
    simp only [List.getElem?_map, hz, Option.map_some']
  · unfold repairLists
    simp only [List.getElem?_map, hz, Option.map_some']
  · rw [repairPair_dist w pi po hw hd]
    by_cases h : norm2 (ptSub pi po) < w
    · rw [if_pos h]
    · rw [if_neg h]
      linarith [not_lt.mp h]
  · intro h
    rw [repairPair_dist w pi po hw hd, if_pos h]
  · intro h
    have := repairPair_unchanged w pi po h
    rw [this]
    exact ⟨rfl, rfl⟩

/--
Witness for C1: the pinched pair inner = (0,0), outer = (60,0) with width 80
(separation 60) is repaired to separation exactly 40 = 80/2.
-/
theorem C1_repair_separation_witness :
    ∃ qi qo, (repairLists 80 [((0 : ℝ), (0 : ℝ))] [((60 : ℝ), (0 : ℝ))]).1[0]? = some qi ∧
      (repairLists 80 [((0 : ℝ), (0 : ℝ))] [((60 : ℝ), (0 : ℝ))]).2[0]? = some qo ∧
      (80 : ℝ) / 2 ≤ norm2 (ptSub qi qo) ∧
      (norm2 (ptSub ((0 : ℝ), (0 : ℝ)) ((60 : ℝ), (0 : ℝ))) < 80 →
        norm2 (ptSub qi qo) = 80 / 2) ∧
      ((80 : ℝ) ≤ norm2 (ptSub ((0 : ℝ), (0 : ℝ)) ((60 : ℝ), (0 : ℝ))) →
        qi = ((0 : ℝ), (0 : ℝ)) ∧ qo = ((60 : ℝ), (0 : ℝ))) :=
  C1_repair_separation 80 [((0 : ℝ), (0 : ℝ))] [((60 : ℝ), (0 : ℝ))] 0
    ((0 : ℝ), (0 : ℝ)) ((60 : ℝ), (0 : ℝ)) (by norm_num)
    (by simp [List.zip])
    (by
      have hsub : ptSub ((0 : ℝ), (0 : ℝ)) ((60 : ℝ), (0 : ℝ)) = (-60, 0) := by
        unfold ptSub; norm_num
      rw [hsub, norm2_x]
      norm_num)

/--
C1 counterexample: with width 80, the pinched pair inner = (0,0), outer = (60,0)
(separation 60, below the target width 80) is moved TOWARD the midpoint and ends
at separation 40, not at the target width 80; and under the alternative reading
(target width = 40), a pair already at or above 40 is not left unchanged.  Either
way the claimed post-repair invariant `separation ≥ target width - ε` fails at
this index for the stated target 80 (40 < 80 - 1/100).
-/
theorem C1_repair_counterexample :
    repairPair 80 ((0 : ℝ), (0 : ℝ)) ((60 : ℝ), (0 : ℝ)) = ((10, 0), (50, 0)) ∧
    norm2 (ptSub ((10 : ℝ), (0 : ℝ)) ((50 : ℝ), (0 : ℝ))) = 40 ∧
    ¬ ((80 : ℝ) - 1 / 100 ≤ 40) ∧
    repairPair 80 ((0 : ℝ), (0 : ℝ)) ((60 : ℝ), (0 : ℝ))
      ≠ (((0 : ℝ), (0 : ℝ)), ((60 : ℝ), (0 : ℝ))) := by
  have hsub : ptSub ((0 : ℝ), (0 : ℝ)) ((60 : ℝ), (0 : ℝ)) = (-60, 0) := by
    unfold ptSub; norm_num
  have hd : norm2 (ptSub ((0 : ℝ), (0 : ℝ)) ((60 : ℝ), (0 : ℝ))) = 60 := by
    rw [hsub, norm2_x]; norm_num
  have heval : repairPair 80 ((0 : ℝ), (0 : ℝ)) ((60 : ℝ), (0 : ℝ)) = ((10, 0), (50, 0)) := by
    unfold repairPair
    rw [hd]
    rw [if_pos (by norm_num : (60 : ℝ) < 80), if_pos (by norm_num : (60 : ℝ) ≠ 0)]
    unfold ptAdd ptSub ptScale
    norm_num
  refine ⟨heval, ?_, by norm_num, ?_⟩
  · have h2 : ptSub ((10 : ℝ), (0 : ℝ)) ((50 : ℝ), (0 : ℝ)) = (-40, 0) := by
      unfold ptSub; norm_num
    rw [h2, norm2_x]; norm_num
  · rw [heval]
    intro h
    have h1 := congrArg (fun pr => pr.1.1) h
    norm_num at h1

/--
One iteration of the offset loop of `Track.calculate_boundaries`
(src/AIRacing.py lines 83-98): take centerline point `i` and its successor
(wrapping via `(i + 1) % len`), form the segment direction; a zero-length
segment is skipped (`continue`, returning `none` here); otherwise normalize,
rotate 90 degrees, scale to the half-width, and emit the inner point
`p1 + offset` and the outer point `p1 - offset`.
-/
def offsetAt (w : ℝ) (cl : List Point) (i : ℕ) : Option (Point × Point) :=
  match (cl[i]?), (cl[(i + 1) % cl.length]?) with
  | some p1, some p2 =>
    let direction := ptSub p2 p1
    let len := norm2 direction
    if len = 0 then none
    else
      let u := ptScale (1 / len) direction
      let offs := ptScale (w / 2) (-u.2, u.1)
      some (ptAdd p1 offs, ptSub p1 offs)
  | _, _ => none

/-- The full offset loop: one optional inner/outer pair per index of the
centerline, zero-length segments contributing nothing. -/
def rawBoundaries (w : ℝ) (c : List Point) : List Point × List Point :=
  (((List.range c.length).filterMap (offsetAt w c)).map Prod.fst,
   ((List.range c.length).filterMap (offsetAt w c)).map Prod.snd)

/--
Closing a boundary: Python does `inner.append(inner[0])`.  For the nonempty
lists arising in the pipeline this appends the first point; `take 1` makes the
operation total (Python would raise IndexError on an empty list) without
changing any nonempty case.
-/
def closeCurve (l : List Point) : List Point := l ++ l.take 1

/-- `Track.calculate_boundaries` of the main variant (src/AIRacing.py
lines 80-103): offset loop, then close both curves. -/
def calculate_boundaries (w : ℝ) (c : List Point) : List Point × List Point :=
  (closeCurve (rawBoundaries w c).1, closeCurve (rawBoundaries w c).2)

/--
Modelled from the spec: the Curve Smoother (`Track._spline_smooth`, scipy
`splprep` and `splev`) is external library code with no source in this
repository; it is abstracted as a function fitting a point list and resampling
it to the requested number of points.  The claims rely only on its output point
count, which the spec fixes as the resample count argument.
-/
def Smoother : Type := List Point → ℕ → List Point

/--
`Track.calculate_boundaries` of the boundary-test variant (src/AIRacing.py
lines 334-371): offset loop and closing as in the main variant, then the
overlap-repair loop, then an independent re-smoothing of each repaired boundary
to 200 points.
-/
def calculate_boundaries_repair (sm : Smoother) (w : ℝ) (c : List Point) :
    List Point × List Point :=
  (sm (repairLists w (calculate_boundaries w c).1 (calculate_boundaries w c).2).1 200,
   sm (repairLists w (calculate_boundaries w c).1 (calculate_boundaries w c).2).2 200)

/-- The collision mask: pixel coordinates to the mask bit, as read by
`track_mask.get_at((ix, iy))`. -/
def Mask : Type := ℤ → ℤ → ℕ

/--
Modelled from the spec: rasterization of the filled track polygon into the
collision mask (`pygame.draw.polygon` on a transparent surface followed by
`pygame.mask.from_surface`, src/AIRacing.py lines 74-77) is external library
code; it is abstracted as a function from the polygon to a mask.
-/
def Rasterizer : Type := List Point → Mask

/-- The state owned by the main-variant `Track` object (src/AIRacing.py
lines 33-40): centerline, two boundaries, width, finalized flag, and the
derived polygon and collision mask (both `None` until finalization). -/
structure TrackState where
  centerline : List Point
  inner_boundary : List Point
  outer_boundary : List Point
  width : ℝ
  finalized : Bool
  track_polygon : Option (List Point)
  track_mask : Option Mask

/-- `Track.__init__(width)`. -/
def Track.init (w : ℝ) : TrackState := ⟨[], [], [], w, false, none, none⟩

/-- `Track.smooth_centerline` (src/AIRacing.py lines 55-58): replace the
centerline by its 200-point smoothing, only when it has more than 2 points. -/
def smooth_centerline (sm : Smoother) (t : TrackState) : TrackState :=
  if 2 < t.centerline.length then { t with centerline := sm t.centerline 200 } else t

/--
`Track.finalize` of the main variant (src/AIRacing.py lines 60-78): when the
centerline has more than 2 points, smooth it, close it by appending its first
point, compute the boundaries (the source calls `calculate_boundaries` twice
with identical, deterministic results), build the track polygon
`outer + inner[::-1]`, rasterize it into the collision mask, and set
`finalized`.  There is no check of the `finalized` flag itself.
-/
def finalize (sm : Smoother) (raster : Rasterizer) (t : TrackState) : TrackState :=
  if 2 < t.centerline.length then
    let c2 := (smooth_centerline sm t).centerline ++ (smooth_centerline sm t).centerline.take 1
    let bnds := calculate_boundaries t.width c2
    let polygon := bnds.2 ++ bnds.1.reverse
    { t with centerline := c2, inner_boundary := bnds.1, outer_boundary := bnds.2,
             track_polygon := some polygon, track_mask := some (raster polygon),
             finalized := true }
  else t

/-- The state owned by the boundary-test-variant `Track` (src/AIRacing.py
lines 305-310): no polygon or mask fields. -/
structure TrackBState where
  centerline : List Point
  inner_boundary : List Point
  outer_boundary : List Point
  width : ℝ
  finalized : Bool

/-- `Track.finalize` of the boundary-test variant (src/AIRacing.py
lines 327-332): smooth, close, compute repaired and re-smoothed boundaries,
set `finalized`. -/
def finalizeB (sm : Smoother) (t : TrackBState) : TrackBState :=
  if 2 < t.centerline.length then
    let c1 := if 2 < t.centerline.length then sm t.centerline 200 else t.centerline
    let c2 := c1 ++ c1.take 1
    let bnds := calculate_boundaries_repair sm t.width c2
    { t with centerline := c2, inner_boundary := bnds.1, outer_boundary := bnds.2,
             finalized := true }
  else t

/--
The user-level finalize trigger: `handle_events` (src/AIRacing.py lines
216-226) only reaches `track.finalize()` inside the branch guarded by
`if not track.finalized:`, so the SPACE keypress is a no-op on a finalized
track.
-/
def finalizeTrigger (sm : Smoother) (raster : Rasterizer) (t : TrackState) : TrackState :=
  if t.finalized then t else finalize sm raster t

/-- A concrete smoother instance for witnesses: it ignores the input and
returns the requested number of uniformly spaced points on the x-axis, so it
satisfies the resample-count contract of the Curve Smoother. -/
def lineSmooth : Smoother := fun _ n => (List.range n).map fun i : ℕ => ((i : ℝ), 0)

theorem lineSmooth_length (pts : List Point) (n : ℕ) : (lineSmooth pts n).length = n := by
  unfold lineSmooth
  rw [List.length_map, List.length_range]

/-- A concrete smoother instance for counterexamples: a resampler that
reproduces its input (truncated to the requested count), i.e. a smoothing with
very loose tolerance. -/
def takeSmooth : Smoother := fun pts n => pts.take n

/-- A trivial concrete rasterizer for witnesses and counterexamples (the mask
content never matters for the claims that use it). -/
def raster0 : Rasterizer := fun _ => fun _ _ => 0

/-- A three-point centerline track (main variant), ready to finalize. -/
def track3 : TrackState :=
  ⟨[((0 : ℝ), (0 : ℝ)), ((1 : ℝ), (0 : ℝ)), ((2 : ℝ), (0 : ℝ))], [], [], 80, false, none, none⟩

/-- A three-point centerline track (boundary-test variant). -/
def track3B : TrackBState :=
  ⟨[((0 : ℝ), (0 : ℝ)), ((1 : ℝ), (0 : ℝ)), ((2 : ℝ), (0 : ℝ))], [], [], 80, false⟩

theorem offsetAt_none_of_zero (w : ℝ) (cl : List Point) (i : ℕ) (p1 p2 : Point)
    (h1 : cl[i]? = some p1) (h2 : cl[(i + 1) % cl.length]? = some p2)
    (h0 : norm2 (ptSub p2 p1) = 0) : offsetAt w cl i = none := by
  unfold offsetAt
  rw [h1, h2]
  simp only [h0, if_pos]

theorem offsetAt_some_of_ne_zero (w : ℝ) (cl : List Point) (i : ℕ) (p1 p2 : Point)
    (h1 : cl[i]? = some p1) (h2 : cl[(i + 1) % cl.length]? = some p2)
    (h0 : norm2 (ptSub p2 p1) ≠ 0) : (offsetAt w cl i).isSome := by
  unfold offsetAt
  rw [h1, h2]
  simp only [if_neg h0, Option.isSome_some]

/--
C8: during boundary offsetting, a degenerate zero-length centerline segment is
skipped and contributes no inner/outer point, and conversely any emitted
boundary pair comes from a segment of nonzero length, so the normalizing
division `direction / length` is never a division by zero.
-/
theorem C8_zero_segment_skipped (w : ℝ) (cl : List Point) (i : ℕ) (p1 p2 : Point)
    (h1 : cl[i]? = some p1) (h2 : cl[(i + 1) % cl.length]? = some p2) :
    (norm2 (ptSub p2 p1) = 0 → offsetAt w cl i = none) ∧
    (∀ pr, offsetAt w cl i = some pr → norm2 (ptSub p2 p1) ≠ 0) := by
  constructor
  · exact offsetAt_none_of_zero w cl i p1 p2 h1 h2
  · intro pr hpr h0
    rw [offsetAt_none_of_zero w cl i p1 p2 h1 h2 h0] at hpr
    exact Option.noConfusion hpr

/-- A centerline with a zero-length first segment. -/
def degSeg : List Point := [((0 : ℝ), (0 : ℝ)), ((0 : ℝ), (0 : ℝ)), ((1 : ℝ), (0 : ℝ))]

/--
Witness for C8: on the centerline [(0,0), (0,0), (1,0)] the zero-length segment
at index 0 produces no boundary pair.
-/
theorem C8_zero_segment_skipped_witness : offsetAt 80 degSeg 0 = none :=
  (C8_zero_segment_skipped 80 degSeg 0 ((0 : ℝ), (0 : ℝ)) ((0 : ℝ), (0 : ℝ))
    (by simp [degSeg]) (by simp [degSeg])).1
    (by
      have hsub : ptSub ((0 : ℝ), (0 : ℝ)) ((0 : ℝ), (0 : ℝ)) = (0, 0) := by
        unfold ptSub; norm_num
      rw [hsub, norm2_x]
      norm_num)

/--
C5: with fewer than 3 centerline points, `Track.finalize` is a no-op: the whole
body is guarded by `if len(self.centerline) > 2`, so the state (centerline,
boundaries, polygon, mask, and the `finalized` flag) is returned unchanged and
the track stays in drawing mode.
-/
theorem C5_finalize_noop (sm : Smoother) (raster : Rasterizer) (t : TrackState)
    (h : t.centerline.length < 3) : finalize sm raster t = t := by
  unfold finalize
  rw [if_neg (by omega)]

/-- Witness for C5: finalizing the freshly created empty track changes nothing. -/
theorem C5_finalize_noop_witness :
    finalize lineSmooth raster0 (Track.init 80) = Track.init 80 :=
  C5_finalize_noop lineSmooth raster0 (Track.init 80) (by simp [Track.init])

/--
C4 (amended): idempotence holds at the level of the user finalize trigger, not
of the raw method: `handle_events` calls `track.finalize()` only inside the
branch guarded by `if not track.finalized:`, so the trigger leaves any
finalized track (its centerline, boundaries, membership region and flag)
unchanged.  `Track.finalize` itself does not test the `finalized` flag and
re-runs its computation when invoked directly on a finalized track (see the
counterexample).
-/
theorem C4_trigger_idempotent (sm : Smoother) (raster : Rasterizer) (t : TrackState)
    (h : t.finalized = true) : finalizeTrigger sm raster t = t := by
  unfold finalizeTrigger
  rw [h]
  simp

/-- Witness for C4: the trigger is a no-op on a concrete finalized track state. -/
theorem C4_trigger_idempotent_witness :
    finalizeTrigger lineSmooth raster0 ⟨[], [], [], 80, true, none, none⟩
      = ⟨[], [], [], 80, true, none, none⟩ :=
  C4_trigger_idempotent lineSmooth raster0 ⟨[], [], [], 80, true, none, none⟩ rfl

/--
C4 counterexample: `Track.finalize` called directly a second time is not a
no-op.  Finalizing the three-point track once (with a smoother that reproduces
its input) yields a finalized track with a 4-point closed centerline; calling
`finalize` again re-smooths and appends another closing point, giving a 5-point
centerline, so the state changes.
-/
theorem C4_finalize_counterexample :
    (finalize takeSmooth raster0 track3).finalized = true ∧
    finalize takeSmooth raster0 (finalize takeSmooth raster0 track3)
      ≠ finalize takeSmooth raster0 track3 := by
  have h4 : (finalize takeSmooth raster0 track3).centerline.length = 4 := rfl
  have h5 : (finalize takeSmooth raster0 (finalize takeSmooth raster0 track3)).centerline.length = 5 := rfl
  refine ⟨rfl, ?_⟩
  intro heq
  have hlen := congrArg (fun s => s.centerline.length) heq
  dsimp only at hlen
  rw [h5, h4] at hlen
  exact absurd hlen (by norm_num)

theorem length_filterMap_of_isSome {α β : Type} (f : α → Option β) :
    ∀ l : List α, (∀ a ∈ l, (f a).isSome) → (l.filterMap f).length = l.length := by
  intro l
  induction l with
  | nil => intro _; rfl
  | cons a t ih =>
    intro h
    have ha := h a (List.mem_cons_self a t)
    obtain ⟨b, hb⟩ := Option.isSome_iff_exists.mp ha
    rw [List.filterMap_cons, hb]
    simp only [List.length_cons]
    rw [ih (fun x hx => h x (List.mem_cons_of_mem a hx))]

/--
C3 (amended): in the boundary-test (repair-enabled) variant, finalizing a
centerline with more than 2 points produces two boundary curves each re-sampled
to exactly 200 points, and sets `finalized`.  (In the main variant the boundary
point count is one per non-degenerate segment plus a closing point — 201 for a
generically spaced smoothed centerline — see the counterexample.)
-/
theorem C3_finalizeB_resample_count (sm : Smoother)
    (hsm : ∀ pts n, (sm pts n).length = n) (t : TrackBState)
    (h : 2 < t.centerline.length) :
    (finalizeB sm t).inner_boundary.length = 200 ∧
    (finalizeB sm t).outer_boundary.length = 200 ∧
    (finalizeB sm t).finalized = true := by
  unfold finalizeB
  rw [if_pos h]
  refine ⟨?_, ?_, rfl⟩
  · exact hsm _ 200
  · exact hsm _ 200

/-- Witness for C3: the three-point track, finalized in the boundary-test
variant with a count-respecting smoother, has 200-point boundaries. -/
theorem C3_finalizeB_resample_count_witness :
    (finalizeB lineSmooth track3B).inner_boundary.length = 200 ∧
    (finalizeB lineSmooth track3B).outer_boundary.length = 200 ∧
    (finalizeB lineSmooth track3B).finalized = true :=
  C3_finalizeB_resample_count lineSmooth lineSmooth_length track3B (by simp [track3B])

/-- The 200 uniformly spaced smoothed points produced by `lineSmooth`. -/
def lineList : List Point := (List.range 200).map fun i : ℕ => ((i : ℝ), 0)

/-- The closed centerline obtained by appending the first smoothed point. -/
def closedLine : List Point := lineList ++ lineList.take 1

theorem lineList_length : lineList.length = 200 := by
  unfold lineList
  rw [List.length_map, List.length_range]

theorem lineList_take_one : lineList.take 1 = [((0 : ℝ), (0 : ℝ))] := by
  have h : List.range 200 = 0 :: List.range' 1 199 := by
    rw [List.range_eq_range']
    exact List.range'_succ 0 199 1
  unfold lineList
  rw [h]
  simp

theorem closedLine_length : closedLine.length = 201 := by
  unfold closedLine
  rw [List.length_append, lineList_take_one, lineList_length]
  rfl

theorem closedLine_get_lt (i : ℕ) (hi : i < 200) : closedLine[i]? = some ((i : ℝ), 0) := by
  unfold closedLine
  rw [List.getElem?_append_left (by rw [lineList_length]; exact hi)]
  unfold lineList
  rw [List.getElem?_map, List.getElem?_range hi]
  rfl

theorem closedLine_get_200 : closedLine[200]? = some ((0 : ℝ), 0) := by
  unfold closedLine
  rw [List.getElem?_append_right lineList_length.le]
  rw [lineList_take_one, lineList_length]
  simp

theorem offsetAt_closedLine_isSome (i : ℕ) (hi : i < 200) :
    (offsetAt 80 closedLine i).isSome := by
  have h1 := closedLine_get_lt i hi
  have hmod : closedLine[(i + 1) % closedLine.length]? = closedLine[i + 1]? := by
    rw [closedLine_length, Nat.mod_eq_of_lt (by omega)]
  by_cases h2 : i + 1 < 200
  · have hg2 := closedLine_get_lt (i + 1) h2
    refine offsetAt_some_of_ne_zero 80 closedLine i _ _ h1 (hmod.trans hg2) ?_
    have hsub : ptSub (((i + 1 : ℕ) : ℝ), (0 : ℝ)) (((i : ℕ) : ℝ), (0 : ℝ)) = (1, 0) := by
      unfold ptSub
      dsimp only
      rw [Prod.mk.injEq]
      constructor
      · push_cast
        ring
      · ring
    rw [hsub, norm2_x]
    norm_num
  · have hi199 : i = 199 := by omega
    subst hi199
    refine offsetAt_some_of_ne_zero 80 closedLine 199 _ _ h1
      (hmod.trans closedLine_get_200) ?_
    have hsub : ptSub ((0 : ℝ), (0 : ℝ)) (((199 : ℕ) : ℝ), (0 : ℝ)) = (-199, 0) := by
      unfold ptSub
      dsimp only
      rw [Prod.mk.injEq]
      constructor
      · push_cast
        ring
      · ring
    rw [hsub, norm2_x]
    norm_num

theorem offsetAt_closedLine_200 : offsetAt 80 closedLine 200 = none := by
  have hmod : closedLine[(200 + 1) % closedLine.length]? = closedLine[0]? := by
    rw [closedLine_length]
  refine offsetAt_none_of_zero 80 closedLine 200 ((0 : ℝ), 0) _ closedLine_get_200
    (hmod.trans (closedLine_get_lt 0 (by norm_num))) ?_
  have hsub : ptSub (((0 : ℕ) : ℝ), (0 : ℝ)) ((0 : ℝ), (0 : ℝ)) = (0, 0) := by
    unfold ptSub
    dsimp only
    rw [Prod.mk.injEq]
    constructor
    · push_cast
      ring
    · ring
  rw [hsub, norm2_x]
  norm_num

theorem rawBoundaries_closedLine_length : (rawBoundaries 80 closedLine).1.length = 200 := by
  unfold rawBoundaries
  dsimp only
  rw [List.length_map, closedLine_length,
    show List.range 201 = List.range 200 ++ [200] by exact List.range_succ 200,
    List.filterMap_append, List.length_append]
  have hfst : ((List.range 200).filterMap (offsetAt 80 closedLine)).length = 200 := by
    rw [length_filterMap_of_isSome _ _
      (fun a ha => offsetAt_closedLine_isSome a (List.mem_range.mp ha))]
    simp
  have hsnd : (([200] : List ℕ).filterMap (offsetAt 80 closedLine)).length = 0 := by
    rw [List.filterMap_cons, offsetAt_closedLine_200]
    rfl
  rw [hfst, hsnd]

/--
C3 counterexample: in the main variant, finalizing the three-point track with a
resample-count-respecting smoother yields an inner boundary with 201 points
(one offset pair per non-degenerate segment of the 201-point closed centerline,
plus the closing point), not 200.
-/
theorem C3_main_count_counterexample :
    (finalize lineSmooth raster0 track3).inner_boundary.length = 201 ∧ (201 : ℕ) ≠ 200 := by
  constructor
  · have hstep : (finalize lineSmooth raster0 track3).inner_boundary
        = closeCurve (rawBoundaries 80 closedLine).1 := rfl
    rw [hstep]
    unfold closeCurve
    rw [List.length_append, List.length_take, rawBoundaries_closedLine_length]
    omega
  · norm_num

/-- Python `int()` truncation toward zero, as applied to float coordinates. -/
def pyInt (x : ℝ) : ℤ := if 0 ≤ x then ⌊x⌋ else ⌈x⌉

/-- Python truthiness of the optional bool produced by `is_inside_track`:
`None` and `False` are both falsy. -/
def truthy (o : Option Bool) : Bool := o.getD false

/--
`Car.is_inside_track` (src/AIRacing.py lines 156-162): when the track is
finalized and has a mask, truncate the coordinates with `int()`, test them
against the canvas bounds, sample the mask inside the canvas and return False
outside; in every other case the Python function falls off the end and returns
`None` (hence the `Option Bool` result).
-/
def is_inside_track (finalized : Bool) (mask : Option Mask) (x y : ℝ) : Option Bool :=
  match finalized, mask with
  | true, some m =>
    if 0 ≤ pyInt x ∧ pyInt x < WIDTH ∧ 0 ≤ pyInt y ∧ pyInt y < HEIGHT then
      some (m (pyInt x) (pyInt y) != 0)
    else some false
  | _, _ => none

/--
C10: invoked on a track that is not finalized (or whose mask is absent), the
membership test returns Python `None` (not the boolean `False`), and callers
that branch on the result rely on `None` being falsy.
-/
theorem C10_membership_none_before_finalize (finalized : Bool) (mask : Option Mask)
    (x y : ℝ) (h : finalized = false ∨ mask = none) :
    is_inside_track finalized mask x y = none ∧
    truthy (is_inside_track finalized mask x y) = false := by
  have hn : is_inside_track finalized mask x y = none := by
    rcases h with h | h
    · subst h
      cases mask <;> rfl
    · subst h
      cases finalized <;> rfl
  exact ⟨hn, by rw [hn]; rfl⟩

/-- Witness for C10: a fresh, unfinalized track answers `none` everywhere. -/
theorem C10_membership_none_before_finalize_witness :
    is_inside_track false none 10 10 = none ∧
    truthy (is_inside_track false none 10 10) = false :=
  C10_membership_none_before_finalize false none 10 10 (Or.inl rfl)

theorem pyInt_le_neg_one (x : ℝ) (h : x ≤ -1) : pyInt x < 0 := by
  unfold pyInt
  rw [if_neg (by linarith)]
  have hle : ⌈x⌉ ≤ (-1 : ℤ) := Int.ceil_le.mpr (by exact_mod_cast h)
  omega

theorem pyInt_ge_bound (x : ℝ) (b : ℕ) (h : (b : ℝ) ≤ x) : (b : ℤ) ≤ pyInt x := by
  unfold pyInt
  rw [if_pos (le_trans (by positivity) h)]
  exact Int.le_floor.mpr (by exact_mod_cast h)

/--
C6 (amended): on a finalized track with a mask, the membership test returns
`some false` for every coordinate whose `int()` truncation falls outside the
canvas, i.e. whenever `x ≤ -1`, `x ≥ WIDTH`, `y ≤ -1` or `y ≥ HEIGHT` — and it
never raises.  (Coordinates in the open interval (-1, 0) truncate toward zero
into pixel row or column 0 and are sampled against the mask instead; see the
counterexample.)
-/
theorem C6_out_of_canvas_false (m : Mask) (x y : ℝ)
    (h : x ≤ -1 ∨ (1080 : ℝ) ≤ x ∨ y ≤ -1 ∨ (1080 : ℝ) ≤ y) :
    is_inside_track true (some m) x y = some false := by
  have hW : WIDTH = 1080 := rfl
  have hH : HEIGHT = 1080 := rfl
  have hcond : ¬ (0 ≤ pyInt x ∧ pyInt x < WIDTH ∧ 0 ≤ pyInt y ∧ pyInt y < HEIGHT) := by
    rcases h with h | h | h | h
    · have := pyInt_le_neg_one x h
      intro hc
      omega
    · have := pyInt_ge_bound x 1080 (by exact_mod_cast h)
      intro hc
      omega
    · have := pyInt_le_neg_one y h
      intro hc
      omega
    · have := pyInt_ge_bound y 1080 (by exact_mod_cast h)
      intro hc
      omega
  unfold is_inside_track
  dsimp only
  rw [if_neg hcond]

/-- Witness for C6: a point far left of the canvas is reported off-track. -/
theorem C6_out_of_canvas_false_witness :
    is_inside_track true (some (fun _ _ => 0)) (-2) 500 = some false :=
  C6_out_of_canvas_false (fun _ _ => 0) (-2) 500 (Or.inl (by norm_num))

/-- A mask whose only set pixel is column 0, row 10. -/
def maskC6 : Mask := fun i j => if i = 0 ∧ j = 10 then 1 else 0

/--
C6 counterexample: the coordinate x = -1/2 is outside the canvas (x < 0), yet
`int(-0.5) = 0` truncates into column 0, the bounds test passes, the mask is
sampled and the membership test reports `some true`, not false.
-/
theorem C6_int_truncation_counterexample :
    ((-1 : ℝ) / 2 < 0) ∧
    is_inside_track true (some maskC6) ((-1 : ℝ) / 2) 10 = some true := by
  refine ⟨by norm_num, ?_⟩
  have hx : pyInt ((-1 : ℝ) / 2) = 0 := by
    unfold pyInt
    rw [if_neg (by norm_num)]
    rw [Int.ceil_eq_iff]
    constructor <;> norm_num
  have hy : pyInt (10 : ℝ) = 10 := by
    unfold pyInt
    rw [if_pos (by norm_num)]
    norm_num
  unfold is_inside_track
  dsimp only
  rw [hx, hy]
  rw [if_pos (by decide)]
  rfl

/-- The five fixed sensor ray offsets relative to the car heading
(`sensor_angles` in `Car.sense`). -/
def sensor_angles : List ℝ := [-45, -20, 0, 20, 45]

/-- `np.radians`: degrees to radians. -/
def radians (d : ℝ) : ℝ := d * Real.pi / 180

/-- The exit condition of the ray-march loop in `Car.sense`: the sampled point
at integer distance `dist` along the ray is not inside the track (Python
`not self.is_inside_track(ray_x, ray_y)`, with `None` falsy). -/
def senseHit (inside : ℝ → ℝ → Option Bool) (x y ray_angle : ℝ) (dist : ℕ) : Bool :=
  ! truthy (inside (x + Real.cos (radians ray_angle) * (dist : ℝ))
                   (y - Real.sin (radians ray_angle) * (dist : ℝ)))

/--
One ray of `Car.sense` (src/AIRacing.py lines 146-154): scan the integer
distances 1..199 (`for dist in range(1, 200)`) and store the first distance
whose sample leaves the track (`self.sensors[i] = dist; break`); when the loop
falls through without a hit, the stored sensor value is left unchanged
(`prev`).
-/
def senseOne (inside : ℝ → ℝ → Option Bool) (x y ray_angle : ℝ) (prev : ℕ) : ℕ :=
  match (List.range' 1 199).find? (senseHit inside x y ray_angle) with
  | some dist => dist
  | none => prev

/--
Modelled from the spec (the claim's contract for the sensor, which has no
direct counterpart in the source): the smallest integer distance d in [1, 200]
whose sample fails the membership test, and the maximum range 200 when no such
d exists.
-/
def senseOneClaimed (inside : ℝ → ℝ → Option Bool) (x y ray_angle : ℝ) : ℕ :=
  match (List.range' 1 200).find? (senseHit inside x y ray_angle) with
  | some dist => dist
  | none => 200

theorem senseOne_fresh (inside : ℝ → ℝ → Option Bool) (x y a : ℝ) :
    senseOne inside x y a 200 = senseOneClaimed inside x y a := by
  unfold senseOne senseOneClaimed
  have hsplit : List.range' 1 200 = List.range' 1 199 ++ [200] := by
    simpa using List.range'_concat 1 199
  rw [hsplit, List.find?_append]
  cases hf : (List.range' 1 199).find? (senseHit inside x y a) with
  | some d => simp
  | none =>
    simp only [Option.none_or]
    cases hp : senseHit inside x y a 200 with
    | true => simp [List.find?, hp]
    | false => simp [List.find?, hp]

/--
C2 (amended): each of the five rays scans the integer distances 1..199 (not
1..200) and returns the smallest one whose sample fails the membership test;
when none fails it keeps the previously stored reading.  For a sensor whose
stored reading is 200 — its initial value — this coincides exactly with the
claimed contract (smallest failing d in [1, 200], else the maximum range 200);
a stale stored reading below 200 breaks the claim (see the counterexample).
-/
theorem C2_sense_fresh_agrees (inside : ℝ → ℝ → Option Bool) (x y heading off : ℝ)
    (hoff : off ∈ sensor_angles) :
    senseOne inside x y (heading + off) 200 = senseOneClaimed inside x y (heading + off) :=
  senseOne_fresh inside x y (heading + off)

/-- Witness for C2: the center ray (offset 0) of a fresh sensor agrees with the
claimed contract on a membership field that is true everywhere. -/
theorem C2_sense_fresh_agrees_witness :
    senseOne (fun _ _ => some true) 0 0 (0 + 0) 200
      = senseOneClaimed (fun _ _ => some true) 0 0 (0 + 0) :=
  C2_sense_fresh_agrees (fun _ _ => some true) 0 0 0 0 (by norm_num [sensor_angles])

/--
C2 counterexample: on a membership field that is true everywhere no sample ever
fails, and a sensor whose stored value is 5 keeps reading 5 after the scan,
while the claimed contract demands the maximum range 200.
-/
theorem C2_stale_counterexample :
    senseOne (fun _ _ => some true) 0 0 0 5 = 5 ∧
    senseOneClaimed (fun _ _ => some true) 0 0 0 = 200 ∧ (5 : ℕ) ≠ 200 := by
  have hfind : ∀ l : List ℕ, l.find? (senseHit (fun _ _ => some true) 0 0 0) = none :=
    fun l => List.find?_eq_none.mpr (fun a _ => by simp [senseHit, truthy])
  refine ⟨?_, ?_, by norm_num⟩
  · unfold senseOne
    rw [hfind]
  · unfold senseOneClaimed
    rw [hfind]

/-- The state owned by a `Car` (src/AIRacing.py lines 121-132): start pose,
current pose, the five stored sensor readings, and the collided flag.  The
color, steering policy and track reference are passed explicitly where used. -/
structure CarState where
  start_x : ℝ
  start_y : ℝ
  x : ℝ
  y : ℝ
  angle : ℝ
  speed : ℝ
  sensors : Fin 5 → ℕ
  collided : Bool

/-- `Car.__init__(x, y, ...)`: start pose = (x, y), heading 0, speed 2, all
sensors at the maximum range 200, not collided. -/
def Car.init (x y : ℝ) : CarState := ⟨x, y, x, y, 0, 2, fun _ => 200, false⟩

/-- `Car.sense`: refresh all five stored readings, one ray per fixed offset. -/
def Car.sense (inside : ℝ → ℝ → Option Bool) (c : CarState) : CarState :=
  { c with sensors := fun i =>
      senseOne inside c.x c.y (c.angle + sensor_angles.getD i.val 0) (c.sensors i) }

/-- `Car.move` (src/AIRacing.py lines 138-141): advance by
(cos(angle), -sin(angle)) x speed. -/
def Car.move (c : CarState) : CarState :=
  { c with x := c.x + Real.cos (radians c.angle) * c.speed,
           y := c.y - Real.sin (radians c.angle) * c.speed }

/-- `Car.reset` (src/AIRacing.py lines 164-170): back to the start position,
heading 0, speed 2, collided cleared. -/
def Car.reset (c : CarState) : CarState :=
  { c with x := c.start_x, y := c.start_y, angle := 0, speed := 2, collided := false }

/-- The sense, steer, move phase of `Car.update`: refresh sensors, add the
policy's heading delta, move. -/
def Car.postMove (ai : (Fin 5 → ℕ) → ℝ) (inside : ℝ → ℝ → Option Bool)
    (c : CarState) : CarState :=
  Car.move { Car.sense inside c with
    angle := (Car.sense inside c).angle + ai (Car.sense inside c).sensors }

/-- The collision test of `Car.update` (line 181): the post-move position fails
the membership test (with `None` falsy) or the raw float position lies outside
the canvas. -/
def collisionCond (inside : ℝ → ℝ → Option Bool) (c : CarState) : Prop :=
  truthy (inside c.x c.y) = false ∨ ¬ (0 ≤ c.x ∧ c.x < 1080 ∧ 0 ≤ c.y ∧ c.y < 1080)

/-- `Car.update` (src/AIRacing.py lines 172-183): while not collided, sense,
steer, move, then on collision set the flag and immediately reset. -/
def Car.update (ai : (Fin 5 → ℕ) → ℝ) (inside : ℝ → ℝ → Option Bool)
    (c : CarState) : CarState :=
  if c.collided then c
  else if collisionCond inside (Car.postMove ai inside c) then
    Car.reset (Car.postMove ai inside c)
  else Car.postMove ai inside c

/--
C7: after a tick in which the post-move position fails the membership test or
leaves the canvas, the agent's position, heading and speed equal exactly the
stored start pose (position = (start_x, start_y), heading 0, speed 2) and the
collided flag reads false at the end of that same tick.
-/
theorem C7_reset_on_collision (ai : (Fin 5 → ℕ) → ℝ) (inside : ℝ → ℝ → Option Bool)
    (c : CarState) (hc : c.collided = false)
    (hcol : collisionCond inside (Car.postMove ai inside c)) :
    (Car.update ai inside c).x = c.start_x ∧
    (Car.update ai inside c).y = c.start_y ∧
    (Car.update ai inside c).angle = 0 ∧
    (Car.update ai inside c).speed = 2 ∧
    (Car.update ai inside c).collided = false := by
  unfold Car.update
  rw [hc]
  simp only [Bool.false_eq_true, if_false]
  rw [if_pos hcol]
  exact ⟨rfl, rfl, rfl, rfl, rfl⟩

/-- Witness for C7: a fresh car on an everywhere-false membership field
collides on its first tick and is back at its start pose. -/
theorem C7_reset_on_collision_witness :
    (Car.update (fun _ => 0) (fun _ _ => some false) (Car.init 100 100)).x
      = (Car.init 100 100).start_x ∧
    (Car.update (fun _ => 0) (fun _ _ => some false) (Car.init 100 100)).y
      = (Car.init 100 100).start_y ∧
    (Car.update (fun _ => 0) (fun _ _ => some false) (Car.init 100 100)).angle = 0 ∧
    (Car.update (fun _ => 0) (fun _ _ => some false) (Car.init 100 100)).speed = 2 ∧
    (Car.update (fun _ => 0) (fun _ _ => some false) (Car.init 100 100)).collided = false :=
  C7_reset_on_collision (fun _ => 0) (fun _ _ => some false) (Car.init 100 100)
    rfl (Or.inl rfl)

/-- `simple_logic` (src/AIRacing.py lines 185-193); `random.choice([-10, 10])`
is modelled by an explicit choice function (the seedable random source of the
spec), which for faithfulness must pick an element of the list it is given. -/
def simple_logic (choice : List ℤ → ℤ) (sensors : Fin 5 → ℕ) : ℤ :=
  if sensors 2 < 50 then choice [-10, 10]
  else if sensors 0 < 50 then 5
  else if sensors 4 < 50 then -5
  else 0

/-- `advanced_logic` (src/AIRacing.py lines 195-207). -/
def advanced_logic (sensors : Fin 5 → ℕ) : ℝ :=
  let left_score := (sensors 0 : ℝ) + (sensors 1 : ℝ)
  let right_score := (sensors 3 : ℝ) + (sensors 4 : ℝ)
  let center_steering := (right_score - left_score) * (0.02 : ℝ)
  if sensors 2 < 30 then (if left_score > right_score then -20 else 20)
  else if sensors 0 < 20 ∨ sensors 4 < 20 then (if sensors 0 < sensors 4 then -15 else 15)
  else center_steering

/-- The sensor reading [10, 100, 10, 100, 100] of the spec scenario: obstacle
ahead (center ray 10 < 50). -/
def obstacleSensors : Fin 5 → ℕ := ![10, 100, 10, 100, 100]

/--
C9: on the readings [10, 100, 10, 100, 100] the Simple policy takes the
obstacle-ahead branch and returns the random choice from {-10, +10}; whatever
the seedable random source picks, the result is -10 or +10 and never 0.
-/
theorem C9_simple_policy_obstacle (choice : List ℤ → ℤ)
    (hchoice : ∀ l : List ℤ, l ≠ [] → choice l ∈ l) :
    (simple_logic choice obstacleSensors = -10 ∨
     simple_logic choice obstacleSensors = 10) ∧
    simple_logic choice obstacleSensors ≠ 0 := by
  have hs : simple_logic choice obstacleSensors = choice [-10, 10] := by
    unfold simple_logic
    rw [if_pos (by decide)]
  have hmem := hchoice [-10, 10] (by simp)
  simp only [List.mem_cons, List.mem_singleton, List.not_mem_nil, or_false] at hmem
  rw [hs]
  exact ⟨hmem, by rcases hmem with h | h <;> rw [h] <;> norm_num⟩

/-- Witness for C9: with the random source that picks the first element, the
policy returns -10 (hence nonzero). -/
theorem C9_simple_policy_obstacle_witness :
    (simple_logic (fun l => l.headD 0) obstacleSensors = -10 ∨
     simple_logic (fun l => l.headD 0) obstacleSensors = 10) ∧
    simple_logic (fun l => l.headD 0) obstacleSensors ≠ 0 :=
  C9_simple_policy_obstacle (fun l => l.headD 0)
    (fun l hl => by
      cases l with
      | nil => exact absurd rfl hl
      | cons a t => simp)

end AIRacing
